import Mathlib

/-!
# Verification of the LibreChat ACL engine

Shallow embedding of the access-control subsystem:
* `src/packages/data-schemas/src/methods/aclEntry.ts` (the in-memory Acl Entry
  store and its query/grant/revoke/modify methods),
* `src/packages/data-schemas/src/methods/userGroup.ts` (principal resolution),
* `src/packages/data-schemas/src/methods/accessRole.ts` (access-role registry),
* `src/api/server/services/PermissionService.js` (the facade with its
  validation and asymmetric error handling).

The JS `Map`-backed stores are modelled as Lean lists in insertion order
(`Array.from(map.values())` enumerates a JS `Map` in insertion order); the
`async` functions are pure state-passing functions; `throw` is modelled with
`Except`.  JS bitwise operators coerce to 32-bit integers; permission bits are
modelled as `Nat` with the 32-bit complement made explicit where `~` occurs.
-/

namespace LibreChatACL

/-- `PrincipalType` enum from `librechat-data-provider`:
USER / GROUP / ROLE / PUBLIC (spec §3). -/
inductive PrincipalType where
  | USER
  | GROUP
  | ROLE
  | PUBLIC
deriving DecidableEq, Repr

/-- `PrincipalModel` enum (the mongoose model name recorded on an entry). -/
inductive PrincipalModel where
  | USER
  | GROUP
  | ROLE
deriving DecidableEq, Repr

/-- An element of a `principalsList` as produced by `getUserPrincipals`:
`{ principalType, principalId? }`.  `principalId` is absent (JS
`undefined`/`null`, modelled as `none`) for PUBLIC. -/
structure Principal where
  principalType : PrincipalType
  principalId : Option String
deriving DecidableEq, Repr

/-- `IAclEntry` record stored in the `aclStore` map of `aclEntry.ts`.
`grantedAt` (a JS `Date`) is modelled as a `Nat` timestamp. -/
structure IAclEntry where
  _id : String
  principalType : PrincipalType
  principalId : Option String
  resourceType : String
  resourceId : String
  permBits : Nat
  roleId : Option String
  grantedBy : String
  grantedAt : Nat
  principalModel : Option PrincipalModel
deriving DecidableEq, Repr

/-- The ACL store: `aclStore : Map<string, IAclEntry>` in insertion order. -/
abbrev AclStore := List IAclEntry

/-- `IGroup` record from `userGroup.ts`; only the fields the ACL engine
reads (`_id`, `memberIds`) are modelled.  `memberIds` is optional in the
source (`g.memberIds?.includes(userId)`). -/
structure IGroup where
  _id : String
  memberIds : Option (List String)
deriving DecidableEq, Repr

/-- `IAccessRole` record from `accessRole.ts`. -/
structure IAccessRole where
  _id : String
  accessRoleId : String
  resourceType : String
  permBits : Nat
deriving DecidableEq, Repr

/-- JS truthiness of an optional string (`undefined`, `null` and `''` are
falsy). -/
def strTruthy : Option String → Bool
  | none => false
  | some s => !(s == "")

/-- JS truthiness of an optional number (`undefined`, `null` and `0` are
falsy). -/
def numTruthy : Option Nat → Bool
  | none => false
  | some n => !(n == 0)

/-- The predicate from `findEntriesByPrincipalsAndResource` (aclEntry.ts
lines 88-93): an entry matches the principals list when some listed
principal matches it; a listed PUBLIC principal matches exactly the PUBLIC
entries, a non-PUBLIC one matches on `(principalType, principalId)`. -/
def principalMatches (principalsList : List Principal) (e : IAclEntry) : Bool :=
  principalsList.any fun p =>
    if p.principalType == PrincipalType.PUBLIC then
      e.principalType == PrincipalType.PUBLIC
    else
      e.principalType == p.principalType && e.principalId == p.principalId

/-- `findEntriesByPrincipalsAndResource(principalsList, resourceType,
resourceId)` of `aclEntry.ts` (lines 79-95). -/
def findEntriesByPrincipalsAndResource (store : AclStore)
    (principalsList : List Principal) (resourceType resourceId : String) :
    List IAclEntry :=
  store.filter fun e =>
    if !(e.resourceType == resourceType && e.resourceId == resourceId) then
      false
    else
      principalMatches principalsList e

/-- `hasPermission(principalsList, resourceType, resourceId, permissionBit)`
of `aclEntry.ts` (lines 100-112): some matching entry holds all the
requested bits. -/
def hasPermission (store : AclStore) (principalsList : List Principal)
    (resourceType resourceId : String) (permissionBit : Nat) : Bool :=
  (findEntriesByPrincipalsAndResource store principalsList resourceType
      resourceId).any
    fun e => e.permBits &&& permissionBit == permissionBit

/-- `getEffectivePermissions(principalsList, resourceType, resourceId)` of
`aclEntry.ts` (lines 117-133): bitwise OR of `permBits` over the matching
entries. -/
def getEffectivePermissions (store : AclStore)
    (principalsList : List Principal) (resourceType resourceId : String) :
    Nat :=
  (findEntriesByPrincipalsAndResource store principalsList resourceType
      resourceId).foldl
    (fun acc e => acc ||| e.permBits) 0

/-- One step of building the batch permissions map: JS
`permissionsMap.set(rid, (permissionsMap.get(rid) || 0) | entry.permBits)`,
on an association list in key-insertion order. -/
def permsMapAdd (m : List (String × Nat)) (rid : String) (bits : Nat) :
    List (String × Nat) :=
  if (m.find? fun kv => kv.1 == rid).isSome then
    m.map fun kv => if kv.1 == rid then (kv.1, kv.2 ||| bits) else kv
  else
    m ++ [(rid, bits)]

/-- `getEffectivePermissionsForResources(principalsList, resourceType,
resourceIds)` of `aclEntry.ts` (lines 138-167): batched `resourceId → bits`
map (modelled as an association list in key-insertion order). -/
def getEffectivePermissionsForResources (store : AclStore)
    (principalsList : List Principal) (resourceType : String)
    (resourceIds : List String) : List (String × Nat) :=
  if resourceIds.isEmpty then
    []
  else
    let allEntries := store.filter fun e =>
      if !(e.resourceType == resourceType && resourceIds.contains e.resourceId)
      then false
      else principalMatches principalsList e
    allEntries.foldl (fun m e => permsMapAdd m e.resourceId e.permBits) []

/-- The tuple equality used by `grantPermission`, `revokePermission` and
`modifyPermissionBits` to locate an existing entry. -/
def tupleMatches (principalType : PrincipalType) (principalId : Option String)
    (resourceType resourceId : String) (e : IAclEntry) : Bool :=
  e.principalType == principalType && e.principalId == principalId &&
    e.resourceType == resourceType && e.resourceId == resourceId

/-- The fresh entry created by `grantPermission` when no tuple match exists
(aclEntry.ts lines 198-219), including the `principalModel` assignment. -/
def mkAclEntry (principalType : PrincipalType) (principalId : Option String)
    (resourceType resourceId : String) (permBits : Nat) (grantedBy : String)
    (roleId : Option String) (newId : String) (now : Nat) : IAclEntry :=
  { _id := newId
    principalType := principalType
    principalId := principalId
    resourceType := resourceType
    resourceId := resourceId
    permBits := permBits
    grantedBy := grantedBy
    grantedAt := now
    roleId := roleId
    principalModel :=
      if principalType == PrincipalType.USER then some PrincipalModel.USER
      else if principalType == PrincipalType.GROUP then
        some PrincipalModel.GROUP
      else if principalType == PrincipalType.ROLE then some PrincipalModel.ROLE
      else none }

/-- The in-place update `grantPermission` performs on an existing entry
(aclEntry.ts lines 190-195): `permBits`, `grantedBy`, `grantedAt` are
overwritten; `roleId` only when the new `roleId` is truthy. -/
def updateAclEntry (e : IAclEntry) (permBits : Nat) (grantedBy : String)
    (roleId : Option String) (now : Nat) : IAclEntry :=
  { e with
    permBits := permBits
    grantedBy := grantedBy
    grantedAt := now
    roleId := if strTruthy roleId then roleId else e.roleId }

/-- `grantPermission(principalType, principalId, resourceType, resourceId,
permBits, grantedBy, _session, roleId)` of `aclEntry.ts` (lines 172-221).
`Array.prototype.find` scans in insertion order, so the first tuple match is
updated in place; otherwise a fresh entry (`_id := newId`, from `nanoid()`)
is appended.  Returns the new store and the returned entry. -/
def grantPermission (store : AclStore) (principalType : PrincipalType)
    (principalId : Option String) (resourceType resourceId : String)
    (permBits : Nat) (grantedBy : String) (roleId : Option String)
    (newId : String) (now : Nat) : AclStore × IAclEntry :=
  match store with
  | [] =>
      ([mkAclEntry principalType principalId resourceType resourceId permBits
          grantedBy roleId newId now],
        mkAclEntry principalType principalId resourceType resourceId permBits
          grantedBy roleId newId now)
  | h :: t =>
      if tupleMatches principalType principalId resourceType resourceId h then
        (updateAclEntry h permBits grantedBy roleId now :: t,
          updateAclEntry h permBits grantedBy roleId now)
      else
        ((h :: (grantPermission t principalType principalId resourceType
            resourceId permBits grantedBy roleId newId now).1),
          (grantPermission t principalType principalId resourceType
            resourceId permBits grantedBy roleId newId now).2)

/-- `revokePermission(principalType, principalId, resourceType, resourceId)`
of `aclEntry.ts` (lines 226-234): `deleteMany` over the exact tuple filter;
returns the new store and `deletedCount`. -/
def revokePermission (store : AclStore) (principalType : PrincipalType)
    (principalId : Option String) (resourceType resourceId : String) :
    AclStore × Nat :=
  let matched := store.filter
    (tupleMatches principalType principalId resourceType resourceId)
  (store.filter fun e =>
      !tupleMatches principalType principalId resourceType resourceId e,
    matched.length)

/-- The 32-bit complement performed by JS `~` on an unsigned value below
`2^32`: `~n` as a 32-bit mask is `0xFFFFFFFF ^^^ n`. -/
def jsNot32 (n : Nat) : Nat := 0xFFFFFFFF ^^^ n

/-- The bit arithmetic of `modifyPermissionBits` (aclEntry.ts lines 260-266):
`if (addBits) permBits |= addBits; if (removeBits) permBits &= ~removeBits`
with JS number truthiness on the optional arguments. -/
def modifyBits (b : Nat) (addBits removeBits : Option Nat) : Nat :=
  if numTruthy removeBits then
    (if numTruthy addBits then b ||| addBits.getD 0 else b) &&&
      jsNot32 (removeBits.getD 0)
  else
    (if numTruthy addBits then b ||| addBits.getD 0 else b)

/-- `modifyPermissionBits(principalType, principalId, resourceType,
resourceId, addBits, removeBits)` of `aclEntry.ts` (lines 239-269): the first
tuple match is updated in place and returned; with no match the store is
untouched and `null` is returned. -/
def modifyPermissionBits (store : AclStore) (principalType : PrincipalType)
    (principalId : Option String) (resourceType resourceId : String)
    (addBits removeBits : Option Nat) : AclStore × Option IAclEntry :=
  match store with
  | [] => ([], none)
  | h :: t =>
      if tupleMatches principalType principalId resourceType resourceId h then
        ({ h with permBits := modifyBits h.permBits addBits removeBits } :: t,
          some { h with permBits := modifyBits h.permBits addBits removeBits })
      else
        ((h :: (modifyPermissionBits t principalType principalId resourceType
            resourceId addBits removeBits).1),
          (modifyPermissionBits t principalType principalId resourceType
            resourceId addBits removeBits).2)

/-- De-duplication through a JS `Set` (`Array.from(new Set(l))`): keeps the
first occurrence of each element, in order. -/
def jsSetDedup (l : List String) : List String :=
  l.foldl (fun acc x => if acc.contains x then acc else acc ++ [x]) []

/-- `findAccessibleResources(principalsList, resourceType, requiredPermBit)`
of `aclEntry.ts` (lines 274-297): resource ids (deduplicated through a JS
`Set`, i.e. first-occurrence order) of the entries of the resource type that
hold all required bits and match the principals list. -/
def findAccessibleResources (store : AclStore)
    (principalsList : List Principal) (resourceType : String)
    (requiredPermBit : Nat) : List String :=
  let entries := store.filter fun e =>
    if !(e.resourceType == resourceType &&
        e.permBits &&& requiredPermBit == requiredPermBit) then
      false
    else principalMatches principalsList e
  jsSetDedup (entries.map (·.resourceId))

/-- `findGroupsByMemberId(userId)` of `userGroup.ts` (lines 84-88):
`g.memberIds?.includes(userId)` — optional chaining makes a missing
`memberIds` behave like the empty list. -/
def findGroupsByMemberId (groups : List IGroup) (userId : String) :
    List IGroup :=
  groups.filter fun g => (g.memberIds.getD []).contains userId

/-- `getUserPrincipals({ userId, role })` of `userGroup.ts` (lines 172-197):
`[{USER, userId}]`, then `{ROLE, role}` when `role && role.trim()` is truthy,
then one `{GROUP, g._id}` per group containing the user, then `{PUBLIC}`. -/
def getUserPrincipals (groups : List IGroup) (userId : String)
    (role : Option String) : List Principal :=
  let base := [Principal.mk PrincipalType.USER (some userId)]
  let withRole :=
    if strTruthy role && strTruthy (role.map (·.trim)) then
      base ++ [Principal.mk PrincipalType.ROLE role]
    else base
  let withGroups := withRole ++
    (findGroupsByMemberId groups userId).map
      fun g => Principal.mk PrincipalType.GROUP (some g._id)
  withGroups ++ [Principal.mk PrincipalType.PUBLIC none]

/-- The role store: `accessRoleStore : Map<string, IAccessRole>` keyed by
`accessRoleId`, modelled as an association list in insertion order. -/
abbrev RoleStore := List IAccessRole

/-- `findRoleByIdentifier(accessRoleId)` of `accessRole.ts` (lines 20-24):
map lookup by the `accessRoleId` key. -/
def findRoleByIdentifier (roles : RoleStore) (accessRoleId : String) :
    Option IAccessRole :=
  (roles.find? fun r => r.accessRoleId == accessRoleId)

/-- The twelve roles installed by `seedDefaultRoles()` of `accessRole.ts`
(lines 89-191), with `RoleBits.VIEWER = 1`, `RoleBits.EDITOR = 3`,
`RoleBits.OWNER = 15` (spec §3) and the `AccessRoleIds` /`ResourceType`
string constants of `librechat-data-provider`.  The `_id` of each seeded
role is a fresh `nanoid()`; it is modelled as the `accessRoleId` prefixed
with `id_`. -/
def seededRoles : RoleStore :=
  [ ⟨"id_agent_viewer", "agent_viewer", "agent", 1⟩,
    ⟨"id_agent_editor", "agent_editor", "agent", 3⟩,
    ⟨"id_agent_owner", "agent_owner", "agent", 15⟩,
    ⟨"id_promptGroup_viewer", "promptGroup_viewer", "promptGroup", 1⟩,
    ⟨"id_promptGroup_editor", "promptGroup_editor", "promptGroup", 3⟩,
    ⟨"id_promptGroup_owner", "promptGroup_owner", "promptGroup", 15⟩,
    ⟨"id_mcp_server_viewer", "mcp_server_viewer", "mcpServer", 1⟩,
    ⟨"id_mcp_server_editor", "mcp_server_editor", "mcpServer", 3⟩,
    ⟨"id_mcp_server_owner", "mcp_server_owner", "mcpServer", 15⟩,
    ⟨"id_remote_agent_viewer", "remote_agent_viewer", "remoteAgent", 1⟩,
    ⟨"id_remote_agent_editor", "remote_agent_editor", "remoteAgent", 3⟩,
    ⟨"id_remote_agent_owner", "remote_agent_owner", "remoteAgent", 15⟩ ]

/-- Modelled from the spec: the `ResourceType` enum values of
`librechat-data-provider` (not under `src/`); spec §3 names AGENT,
PROMPTGROUP, MCPSERVER and REMOTE_AGENT, matching the four resource types
seeded by `accessRole.ts`. -/
def validResourceTypes : List String :=
  ["agent", "promptGroup", "mcpServer", "remoteAgent"]

/-!
## Permission Service facade (`src/api/server/services/PermissionService.js`)

JS `throw`/`catch` is modelled with `Except PSError`.  Each `PSError`
constructor stands for one distinct `Error` message thrown by the facade;
the `catch` blocks that re-throw only errors whose message `includes`
`'requiredPermission(s) must be'` are modelled by testing for the
`reqPermNotPositive` constructor, which is the only error the facade can
produce whose message contains that text.  `requiredPermission` inputs are
JS numbers, modelled as `Int` so that the `< 1` validation covers zero and
negative values (the `typeof !== 'number'` arm of the validation concerns
non-number JS values, which the typed embedding cannot represent). -/

/-- The distinct error messages thrown by `PermissionService.js`. -/
inductive PSError where
  /-- `Principal ID is required for user, group, and role principals` -/
  | principalIdRequired
  /-- `Invalid role ID: ...` -/
  | invalidRoleId (id : String)
  /-- `Invalid resource ID: ...` -/
  | invalidResourceId
  /-- `Invalid resourceType: ... . Valid types: ...` -/
  | invalidResourceType (rt : String)
  /-- `requiredPermission(s) must be a positive number` -/
  | reqPermNotPositive
  /-- `Role ... not found` -/
  | roleNotFound (id : String)
  /-- `Role ... is for ... resources, not ...` -/
  | roleResourceMismatch (id roleRt rt : String)
deriving DecidableEq, Repr

/-- `validateResourceType(resourceType)` of `PermissionService.js`
(lines 35-40): throws unless the type is one of the `ResourceType` enum
values. -/
def validateResourceType (resourceType : String) : Except PSError Unit :=
  if validResourceTypes.contains resourceType then .ok ()
  else .error (.invalidResourceType resourceType)

/-- `grantPermission({...})` of `PermissionService.js` (lines 53-110): the
facade validates, resolves `accessRoleId` through the role registry, checks
the role's resource type, and delegates to the store-level grant with the
role's `permBits` and `_id`.  Its `catch` logs and re-throws every error.
The `Object.values(PrincipalType).includes(principalType)` check cannot fail
in the embedding because `principalType` is typed. -/
def psGrantPermission (roles : RoleStore) (store : AclStore)
    (principalType : PrincipalType) (principalId : Option String)
    (resourceType resourceId : String) (accessRoleId : String)
    (grantedBy : String) (newId : String) (now : Nat) :
    Except PSError (AclStore × IAclEntry) :=
  if principalType != PrincipalType.PUBLIC && !strTruthy principalId then
    .error .principalIdRequired
  else if strTruthy principalId && principalType == PrincipalType.ROLE &&
      (principalId.getD "").trim == "" then
    .error (.invalidRoleId (principalId.getD ""))
  else if resourceId == "" then
    .error .invalidResourceId
  else do
    validateResourceType resourceType
    match findRoleByIdentifier roles accessRoleId with
    | none => .error (.roleNotFound accessRoleId)
    | some role =>
        if role.resourceType != resourceType then
          .error (.roleResourceMismatch accessRoleId role.resourceType
            resourceType)
        else
          .ok (grantPermission store principalType principalId resourceType
            resourceId role.permBits grantedBy (some role._id) newId now)

/-- The `try` body of `checkPermission({...})` (lines 116-129). -/
def checkPermissionBody (groups : List IGroup) (store : AclStore)
    (userId : String) (role : Option String) (resourceType resourceId : String)
    (requiredPermission : Int) : Except PSError Bool :=
  if requiredPermission < 1 then .error .reqPermNotPositive
  else do
    validateResourceType resourceType
    let principals := getUserPrincipals groups userId role
    if principals.isEmpty then .ok false
    else
      .ok (hasPermission store principals resourceType resourceId
        requiredPermission.toNat)

/-- `checkPermission({...})` of `PermissionService.js` (lines 115-137): its
`catch` re-throws only errors whose message includes
`'requiredPermission must be'` and converts every other failure to
`false`. -/
def psCheckPermission (groups : List IGroup) (store : AclStore)
    (userId : String) (role : Option String) (resourceType resourceId : String)
    (requiredPermission : Int) : Except PSError Bool :=
  match checkPermissionBody groups store userId role resourceType resourceId
      requiredPermission with
  | .error e =>
      if e == PSError.reqPermNotPositive then .error e else .ok false
  | r => r

/-- The `try` body of `getEffectivePermissions({...})` (lines 143-152). -/
def getEffectivePermissionsBody (groups : List IGroup) (store : AclStore)
    (userId : String) (role : Option String)
    (resourceType resourceId : String) : Except PSError Nat := do
  validateResourceType resourceType
  let principals := getUserPrincipals groups userId role
  if principals.isEmpty then .ok 0
  else .ok (getEffectivePermissions store principals resourceType resourceId)

/-- `getEffectivePermissions({...})` of `PermissionService.js`
(lines 142-157): its `catch` converts every failure — validation errors
included — to `0`. -/
def psGetEffectivePermissions (groups : List IGroup) (store : AclStore)
    (userId : String) (role : Option String)
    (resourceType resourceId : String) : Except PSError Nat :=
  match getEffectivePermissionsBody groups store userId role resourceType
      resourceId with
  | .error _ => .ok 0
  | r => r

/-- The `try` body of `findAccessibleResources({...})` (lines 189-201). -/
def findAccessibleResourcesBody (groups : List IGroup) (store : AclStore)
    (userId : String) (role : Option String) (resourceType : String)
    (requiredPermissions : Int) : Except PSError (List String) :=
  if requiredPermissions < 1 then .error .reqPermNotPositive
  else do
    validateResourceType resourceType
    let principalsList := getUserPrincipals groups userId role
    if principalsList.isEmpty then .ok []
    else
      .ok (findAccessibleResources store principalsList resourceType
        requiredPermissions.toNat)

/-- `findAccessibleResources({...})` of `PermissionService.js`
(lines 188-209): its `catch` re-throws only errors whose message includes
`'requiredPermissions must be'` and converts every other failure to `[]`. -/
def psFindAccessibleResources (groups : List IGroup) (store : AclStore)
    (userId : String) (role : Option String) (resourceType : String)
    (requiredPermissions : Int) : Except PSError (List String) :=
  match findAccessibleResourcesBody groups store userId role resourceType
      requiredPermissions with
  | .error e =>
      if e == PSError.reqPermNotPositive then .error e else .ok []
  | r => r

/-- The `try` body of `findPubliclyAccessibleResources({...})`
(lines 215-228): `AclEntry.find({ principalType: PUBLIC, resourceType,
permBits: requiredPermissions })` — the generic `findAclEntries` filter
compares `permBits` with plain (exact) equality (aclEntry.ts line 26,
`// simplification for stateless`) — then de-duplicates the resource ids
through a `Set`. -/
def findPubliclyAccessibleResourcesBody (store : AclStore)
    (resourceType : String) (requiredPermissions : Int) :
    Except PSError (List String) :=
  if requiredPermissions < 1 then .error .reqPermNotPositive
  else do
    validateResourceType resourceType
    let entries := store.filter fun e =>
      e.principalType == PrincipalType.PUBLIC &&
        e.resourceType == resourceType &&
        (e.permBits : Int) == requiredPermissions
    .ok (jsSetDedup (entries.map (·.resourceId)))

/-- `findPubliclyAccessibleResources({...})` of `PermissionService.js`
(lines 214-236): its `catch` re-throws only errors whose message includes
`'requiredPermissions must be'` and converts every other failure to `[]`. -/
def psFindPubliclyAccessibleResources (store : AclStore)
    (resourceType : String) (requiredPermissions : Int) :
    Except PSError (List String) :=
  match findPubliclyAccessibleResourcesBody store resourceType
      requiredPermissions with
  | .error e =>
      if e == PSError.reqPermNotPositive then .error e else .ok []
  | r => r

/-- A principal object passed to `bulkUpdateResourcePermissions`; only the
fields the control flow reads are modelled (`type`, `id`, `accessRoleId`);
the remaining fields (name, email, …) are only echoed back verbatim. -/
structure BulkPrincipal where
  type : PrincipalType
  id : Option String
  accessRoleId : Option String
deriving DecidableEq, Repr

/-- The `{granted, updated, revoked, errors}` result object of
`bulkUpdateResourcePermissions` (lines 503-508).  `updated` is initialised
empty and never pushed to in the source. -/
structure BulkResult where
  granted : List BulkPrincipal
  updated : List BulkPrincipal
  revoked : List BulkPrincipal
  errors : List (BulkPrincipal × String)
deriving DecidableEq, Repr

/-- The `rolesMap` lookup of `bulkUpdateResourcePermissions` (lines
497-501, 520): `AccessRole.find({resourceType})` loaded into a `Map` keyed
by `accessRoleId` (`Map.set` lets a later duplicate overwrite an earlier
one), then `rolesMap.get(...)`. -/
def rolesMapGet (roles : RoleStore) (resourceType accessRoleId : String) :
    Option IAccessRole :=
  (roles.filter fun r => r.resourceType == resourceType).foldl
    (fun acc r => if r.accessRoleId == accessRoleId then some r else acc) none

/-- `AclEntry.findOneAndDelete({...tuple})` used by the revoke loop of
`bulkUpdateResourcePermissions` (lines 563-568): removes the first tuple
match, if any. -/
def findOneAndDeleteTuple (store : AclStore) (principalType : PrincipalType)
    (principalId : Option String) (resourceType resourceId : String) :
    AclStore :=
  match store with
  | [] => []
  | h :: t =>
      if tupleMatches principalType principalId resourceType resourceId h then
        t
      else
        h :: findOneAndDeleteTuple t principalType principalId resourceType
          resourceId

/-- The loop over `updatedPrincipals` (lines 510-559), threading the store,
the `granted` list, the `errors` list and a counter used to model the fresh
`nanoid()` of each store-level grant.  A principal without `accessRoleId`
or with an unknown one pushes an error and continues; otherwise
`grantPermissionACL` is called (the store-level grant, which cannot throw)
and the principal is echoed into `granted`. -/
def bulkUpdateLoop (roles : RoleStore) (resourceType resourceId : String)
    (grantedBy : String) (now : Nat) :
    List BulkPrincipal → AclStore → List BulkPrincipal →
      List (BulkPrincipal × String) → Nat →
      AclStore × List BulkPrincipal × List (BulkPrincipal × String)
  | [], store, granted, errors, _ => (store, granted, errors)
  | p :: rest, store, granted, errors, k =>
      if !strTruthy p.accessRoleId then
        bulkUpdateLoop roles resourceType resourceId grantedBy now rest store
          granted
          (errors ++ [(p, "accessRoleId is required for updated principals")])
          k
      else
        match rolesMapGet roles resourceType (p.accessRoleId.getD "") with
        | none =>
            bulkUpdateLoop roles resourceType resourceId grantedBy now rest
              store granted
              (errors ++
                [(p, "Role " ++ p.accessRoleId.getD "" ++ " not found")])
              k
        | some role =>
            let r := grantPermission store p.type p.id resourceType resourceId
              role.permBits grantedBy (some role._id)
              ("bulk_" ++ toString k) now
            bulkUpdateLoop roles resourceType resourceId grantedBy now rest
              r.1 (granted ++ [p]) errors (k + 1)

/-- The loop over `revokedPrincipals` (lines 561-587): best-effort
`findOneAndDelete` per principal, echoing each into `revoked` (the
store-level delete cannot throw, so the `catch` arm is unreachable). -/
def bulkRevokeLoop (resourceType resourceId : String) :
    List BulkPrincipal → AclStore → List BulkPrincipal →
      AclStore × List BulkPrincipal
  | [], store, revoked => (store, revoked)
  | p :: rest, store, revoked =>
      bulkRevokeLoop resourceType resourceId rest
        (findOneAndDeleteTuple store p.type p.id resourceType resourceId)
        (revoked ++ [p])

/-- `bulkUpdateResourcePermissions({...})` of `PermissionService.js`
(lines 477-594).  The `updatedPrincipals`/`revokedPrincipals` array checks
cannot fail in the typed embedding; `!resourceId` throws; per-principal
failures are accumulated in `errors` and never thrown. -/
def bulkUpdateResourcePermissions (roles : RoleStore) (store : AclStore)
    (resourceType resourceId : String)
    (updatedPrincipals revokedPrincipals : List BulkPrincipal)
    (grantedBy : String) (now : Nat) :
    Except PSError (AclStore × BulkResult) :=
  if resourceId == "" then .error .invalidResourceId
  else
    let u := bulkUpdateLoop roles resourceType resourceId grantedBy now
      updatedPrincipals store [] [] 0
    let r := bulkRevokeLoop resourceType resourceId revokedPrincipals u.1 []
    .ok (r.1,
      { granted := u.2.1
        updated := []
        revoked := r.2
        errors := u.2.2 })

/-!
## Shared lemmas
-/

/-- The filter predicate of `findEntriesByPrincipalsAndResource` is the
conjunction of the resource test and the principal test. -/
theorem findEntries_eq (store : AclStore) (P : List Principal)
    (T R : String) :
    findEntriesByPrincipalsAndResource store P T R =
      store.filter fun e =>
        (e.resourceType == T && e.resourceId == R) && principalMatches P e := by
  unfold findEntriesByPrincipalsAndResource
  congr 1
  funext e
  cases h1 : (e.resourceType == T && e.resourceId == R) <;> simp [h1]

/-- `principalMatches` as a proposition: a listed PUBLIC principal matches
exactly the PUBLIC entries; a non-PUBLIC one matches on
`(principalType, principalId)`. -/
theorem principalMatches_iff (P : List Principal) (e : IAclEntry) :
    principalMatches P e = true ↔
      ∃ p ∈ P,
        (p.principalType = PrincipalType.PUBLIC ∧
          e.principalType = PrincipalType.PUBLIC) ∨
        (p.principalType ≠ PrincipalType.PUBLIC ∧
          e.principalType = p.principalType ∧
          e.principalId = p.principalId) := by
  unfold principalMatches
  rw [List.any_eq_true]
  constructor
  · rintro ⟨p, hp, hcond⟩
    refine ⟨p, hp, ?_⟩
    by_cases hpub : p.principalType = PrincipalType.PUBLIC
    · rw [if_pos (by simp [hpub])] at hcond
      exact Or.inl ⟨hpub, by simpa using hcond⟩
    · rw [if_neg (by simp [hpub])] at hcond
      simp only [Bool.and_eq_true, beq_iff_eq] at hcond
      exact Or.inr ⟨hpub, hcond.1, hcond.2⟩
  · rintro ⟨p, hp, h | h⟩
    · exact ⟨p, hp, by rw [if_pos (by simp [h.1])]; simp [h.2]⟩
    · exact ⟨p, hp, by rw [if_neg (by simp [h.1])]; simp [h.2.1, h.2.2]⟩

/-- Folding bitwise OR over a list: a bit of the result is set iff it is set
in the seed or in some element. -/
theorem foldl_lor_testBit (l : List IAclEntry) (init : Nat) (i : Nat) :
    ((l.foldl (fun acc e => acc ||| e.permBits) init).testBit i) =
      (init.testBit i || l.any fun e => e.permBits.testBit i) := by
  induction l generalizing init with
  | nil => simp
  | cons h t ih =>
      simp [List.foldl_cons, ih, Nat.testBit_lor, Bool.or_assoc]

/-- Membership in the JS-`Set` style dedup. -/
theorem jsSetDedup_mem (l : List String) (x : String) :
    x ∈ jsSetDedup l ↔ x ∈ l := by
  have aux : ∀ (l acc : List String),
      x ∈ l.foldl
          (fun acc y => if acc.contains y then acc else acc ++ [y]) acc ↔
        x ∈ acc ∨ x ∈ l := by
    intro l
    induction l with
    | nil => simp
    | cons h t ih =>
        intro acc
        rw [List.foldl_cons]
        by_cases hc : acc.contains h = true
        · rw [if_pos hc, ih]
          have hm : h ∈ acc := by
            simpa [List.contains] using List.elem_iff.mp hc
          constructor
          · rintro (hx | hx)
            · exact Or.inl hx
            · exact Or.inr (List.mem_cons_of_mem _ hx)
          · rintro (hx | hx)
            · exact Or.inl hx
            · rcases List.mem_cons.mp hx with rfl | hx
              · exact Or.inl hm
              · exact Or.inr hx
        · rw [if_neg hc, ih]
          simp only [List.mem_append, List.mem_singleton, List.mem_cons]
          tauto
  unfold jsSetDedup
  rw [aux l []]
  simp

/-- The JS-`Set` style dedup has no duplicates. -/
theorem jsSetDedup_nodup (l : List String) : (jsSetDedup l).Nodup := by
  have aux : ∀ (l acc : List String), acc.Nodup →
      (l.foldl
          (fun acc y => if acc.contains y then acc else acc ++ [y]) acc).Nodup
      := by
    intro l
    induction l with
    | nil => intro acc h; simpa using h
    | cons h t ih =>
        intro acc hacc
        rw [List.foldl_cons]
        by_cases hc : acc.contains h = true
        · rw [if_pos hc]; exact ih _ hacc
        · rw [if_neg hc]
          refine ih _ ?_
          have hm : h ∉ acc := by
            intro hmem
            exact hc (by simpa [List.contains] using List.elem_iff.mpr hmem)
          simpa [List.concat_eq_append] using hacc.concat hm
  unfold jsSetDedup
  exact aux l [] List.nodup_nil

/-!
## C1 — effective permissions and PUBLIC entries
-/

/-- The effective-permissions function the spec's words describe ("bitwise
OR of `permBits` over every Acl Entry whose principal ∈ P **or is PUBLIC**,
restricted to R"): PUBLIC entries are always included, independent of
whether `P` contains a PUBLIC element.  Written to compare against the
source's `getEffectivePermissions`. -/
def specEffectivePermissions (store : AclStore) (P : List Principal)
    (T R : String) : Nat :=
  (store.filter fun e =>
      (e.resourceType == T && e.resourceId == R) &&
        (e.principalType == PrincipalType.PUBLIC ||
          P.any fun p =>
            e.principalType == p.principalType &&
              e.principalId == p.principalId)).foldl
    (fun acc e => acc ||| e.permBits) 0

/-- A PUBLIC entry granting VIEW on agent `r1`. -/
def pubViewEntry : IAclEntry :=
  { _id := "e1"
    principalType := PrincipalType.PUBLIC
    principalId := none
    resourceType := "agent"
    resourceId := "r1"
    permBits := 1
    roleId := none
    grantedBy := "admin"
    grantedAt := 0
    principalModel := none }

/-- C1 counterexample: with `P = [{USER, u1}]` (no PUBLIC element) and a
store holding only a PUBLIC entry with `permBits = 1` on the resource,
`getEffectivePermissions` returns `0`, while the claim's formula (PUBLIC
entries always included) yields `1`: PUBLIC entries are **not** included
when `P` contains no PUBLIC element. -/
theorem c1_counterexample :
    getEffectivePermissions [pubViewEntry]
        [⟨PrincipalType.USER, some "u1"⟩] "agent" "r1" = 0 ∧
      specEffectivePermissions [pubViewEntry]
        [⟨PrincipalType.USER, some "u1"⟩] "agent" "r1" = 1 := by
  constructor <;> rfl

/-- C1 (amended): `getEffectivePermissions(P, T, R)` is the bitwise OR of
`permBits` over every stored entry for `(T, R)` that matches an element of
`P`, where a PUBLIC entry matches only through a PUBLIC element of `P` (and
a non-PUBLIC element matches on `(principalType, principalId)`): bit `i` of
the result is set iff some such entry has bit `i` set. -/
theorem c1_effectivePermissions_amended (store : AclStore)
    (P : List Principal) (T R : String) (i : Nat) :
    (getEffectivePermissions store P T R).testBit i = true ↔
      ∃ e ∈ store,
        e.resourceType = T ∧ e.resourceId = R ∧
        (∃ p ∈ P,
          (p.principalType = PrincipalType.PUBLIC ∧
            e.principalType = PrincipalType.PUBLIC) ∨
          (p.principalType ≠ PrincipalType.PUBLIC ∧
            e.principalType = p.principalType ∧
            e.principalId = p.principalId)) ∧
        e.permBits.testBit i = true := by
  unfold getEffectivePermissions
  rw [findEntries_eq, foldl_lor_testBit]
  simp only [Nat.zero_testBit, Bool.false_or, List.any_eq_true,
    List.mem_filter, Bool.and_eq_true, beq_iff_eq]
  constructor
  · rintro ⟨e, ⟨he, ⟨hT, hR⟩, hm⟩, hbit⟩
    exact ⟨e, he, hT, hR, (principalMatches_iff P e).mp hm, hbit⟩
  · rintro ⟨e, he, hT, hR, hm, hbit⟩
    exact ⟨e, ⟨he, ⟨hT, hR⟩, (principalMatches_iff P e).mpr hm⟩, hbit⟩

/-!
## C2 — publicly accessible resources
-/

/-- The matching the claim describes for `findPubliclyAccessibleResources`
("an entry matches when it holds all requested bits, i.e.
`(entry.permBits & b) === b`"), written to compare against the source,
which filters with exact `permBits` equality instead. -/
def specPubliclyAccessibleResources (store : AclStore) (T : String)
    (b : Nat) : List String :=
  jsSetDedup ((store.filter fun e =>
      e.principalType == PrincipalType.PUBLIC && e.resourceType == T &&
        e.permBits &&& b == b).map (·.resourceId))

/-- A PUBLIC entry granting VIEW|EDIT (bits 3) on agent `r1`. -/
def pubEditEntry : IAclEntry :=
  { pubViewEntry with _id := "e2", permBits := 3 }

/-- C2 counterexample: a PUBLIC entry with `permBits = 3` holds all bits of
`b = 1` (`3 &&& 1 = 1`), so the claim's matching returns `["r1"]`; the code
filters with exact equality `permBits === 1` and returns `[]`. -/
theorem c2_counterexample :
    psFindPubliclyAccessibleResources [pubEditEntry] "agent" 1 =
        Except.ok [] ∧
      specPubliclyAccessibleResources [pubEditEntry] "agent" 1 = ["r1"] ∧
      pubEditEntry.permBits &&& 1 = 1 := by
  refine ⟨rfl, rfl, rfl⟩

/-- C2 (amended): for a valid resource type and positive mask `b`,
`findPubliclyAccessibleResources(T, b)` returns exactly the de-duplicated
resource ids of type `T` that carry a PUBLIC ACL entry whose `permBits`
equal `b` **exactly** (`entry.permBits === b`), not every entry holding the
requested bits. -/
theorem c2_publicResources_amended (store : AclStore) (T : String) (b : Int)
    (hT : T ∈ validResourceTypes) (hb : 1 ≤ b) :
    ∃ l, psFindPubliclyAccessibleResources store T b = Except.ok l ∧
      l.Nodup ∧
      ∀ rid, rid ∈ l ↔
        ∃ e ∈ store, e.principalType = PrincipalType.PUBLIC ∧
          e.resourceType = T ∧ (e.permBits : Int) = b ∧ e.resourceId = rid := by
  have hcond : ¬ b < 1 := not_lt.mpr hb
  have hcont : validResourceTypes.contains T = true := by
    simpa [List.contains] using List.elem_iff.mpr hT
  have hbody : findPubliclyAccessibleResourcesBody store T b =
      Except.ok (jsSetDedup ((store.filter fun e =>
        e.principalType == PrincipalType.PUBLIC && e.resourceType == T &&
          (e.permBits : Int) == b).map (·.resourceId))) := by
    unfold findPubliclyAccessibleResourcesBody validateResourceType
    rw [if_neg hcond, if_pos hcont]
    rfl
  refine ⟨jsSetDedup ((store.filter fun e =>
      e.principalType == PrincipalType.PUBLIC && e.resourceType == T &&
        (e.permBits : Int) == b).map (·.resourceId)), ?_,
    jsSetDedup_nodup _, ?_⟩
  · unfold psFindPubliclyAccessibleResources
    rw [hbody]
  · intro rid
    rw [jsSetDedup_mem, List.mem_map]
    constructor
    · rintro ⟨e, he, rfl⟩
      rw [List.mem_filter] at he
      simp only [Bool.and_eq_true, beq_iff_eq] at he
      exact ⟨e, he.1, he.2.1.1, he.2.1.2, he.2.2, rfl⟩
    · rintro ⟨e, he, h1, h2, h3, rfl⟩
      refine ⟨e, ?_, rfl⟩
      rw [List.mem_filter]
      simp only [Bool.and_eq_true, beq_iff_eq]
      exact ⟨he, ⟨h1, h2⟩, h3⟩

/-!
## Grant lemmas (shared by C3 and C10)
-/

/-- The `(principalType, principalId, resourceType, resourceId)` tuple of an
entry. -/
def tupleKey (e : IAclEntry) :
    PrincipalType × Option String × String × String :=
  (e.principalType, e.principalId, e.resourceType, e.resourceId)

theorem tupleMatches_iff (pt : PrincipalType) (pid : Option String)
    (rt rid : String) (e : IAclEntry) :
    tupleMatches pt pid rt rid e = true ↔ tupleKey e = (pt, pid, rt, rid) := by
  simp [tupleMatches, tupleKey, Prod.ext_iff, and_assoc]

theorem tupleKey_mkAclEntry (pt : PrincipalType) (pid : Option String)
    (rt rid : String) (bits : Nat) (gb : String) (roleId : Option String)
    (newId : String) (now : Nat) :
    tupleKey (mkAclEntry pt pid rt rid bits gb roleId newId now) =
      (pt, pid, rt, rid) := rfl

theorem tupleKey_updateAclEntry (e : IAclEntry) (bits : Nat) (gb : String)
    (roleId : Option String) (now : Nat) :
    tupleKey (updateAclEntry e bits gb roleId now) = tupleKey e := rfl

/-- The entry returned by a grant always carries the granted bits. -/
theorem grant_permBits (store : AclStore) (pt : PrincipalType)
    (pid : Option String) (rt rid : String) (bits : Nat) (gb : String)
    (roleId : Option String) (newId : String) (now : Nat) :
    ((grantPermission store pt pid rt rid bits gb roleId newId now).2).permBits
      = bits := by
  induction store with
  | nil => rfl
  | cons a t ih =>
      rw [grantPermission]
      by_cases hm : tupleMatches pt pid rt rid a = true
      · rw [if_pos hm]
        rfl
      · rw [if_neg hm]
        exact ih

/-- When no entry matches the tuple, a grant appends the fresh entry. -/
theorem grant_notFound (store : AclStore) (pt : PrincipalType)
    (pid : Option String) (rt rid : String) (bits : Nat) (gb : String)
    (roleId : Option String) (newId : String) (now : Nat)
    (h : ∀ x ∈ store, tupleMatches pt pid rt rid x = false) :
    grantPermission store pt pid rt rid bits gb roleId newId now =
      (store ++ [mkAclEntry pt pid rt rid bits gb roleId newId now],
        mkAclEntry pt pid rt rid bits gb roleId newId now) := by
  induction store with
  | nil => rfl
  | cons a t ih =>
      have ha : tupleMatches pt pid rt rid a = false := h a (by simp)
      rw [grantPermission, if_neg (by simp [ha]),
        ih fun x hx => h x (by simp [hx])]
      simp

/-- When the first tuple match is `e`, a grant updates `e` in place. -/
theorem grant_found (pre post : AclStore) (e : IAclEntry)
    (pt : PrincipalType) (pid : Option String) (rt rid : String) (bits : Nat)
    (gb : String) (roleId : Option String) (newId : String) (now : Nat)
    (hpre : ∀ x ∈ pre, tupleMatches pt pid rt rid x = false)
    (he : tupleMatches pt pid rt rid e = true) :
    grantPermission (pre ++ e :: post) pt pid rt rid bits gb roleId newId now
      = (pre ++ updateAclEntry e bits gb roleId now :: post,
        updateAclEntry e bits gb roleId now) := by
  induction pre with
  | nil =>
      simp only [List.nil_append]
      rw [grantPermission, if_pos he]
  | cons a t ih =>
      have ha : tupleMatches pt pid rt rid a = false := hpre a (by simp)
      rw [List.cons_append, grantPermission, if_neg (by simp [ha]),
        ih fun x hx => hpre x (by simp [hx])]
      simp

/-- Every entry in a post-grant store is an old entry or carries the granted
tuple. -/
theorem grant_mem (store : AclStore) (pt : PrincipalType)
    (pid : Option String) (rt rid : String) (bits : Nat) (gb : String)
    (roleId : Option String) (newId : String) (now : Nat) (x : IAclEntry)
    (hx : x ∈ (grantPermission store pt pid rt rid bits gb roleId newId
      now).1) :
    x ∈ store ∨ tupleKey x = (pt, pid, rt, rid) := by
  induction store with
  | nil =>
      right
      rw [grantPermission] at hx
      rw [List.mem_singleton.mp hx]
      rfl
  | cons a t ih =>
      rw [grantPermission] at hx
      by_cases hm : tupleMatches pt pid rt rid a = true
      · rw [if_pos hm] at hx
        rcases List.mem_cons.mp hx with rfl | hx
        · right
          rw [tupleKey_updateAclEntry]
          exact (tupleMatches_iff pt pid rt rid a).mp hm
        · exact Or.inl (List.mem_cons_of_mem _ hx)
      · rw [if_neg hm] at hx
        rcases List.mem_cons.mp hx with rfl | hx
        · exact Or.inl (List.mem_cons_self _ _)
        · rcases ih hx with h | h
          · exact Or.inl (List.mem_cons_of_mem _ h)
          · exact Or.inr h

/-- "At most one entry per tuple": all stored entries have pairwise distinct
tuple keys. -/
def AtMostOnePerTuple (store : AclStore) : Prop :=
  store.Pairwise fun a b => tupleKey a ≠ tupleKey b

/-- A grant preserves the one-entry-per-tuple invariant. -/
theorem grant_preserves_atMostOne (store : AclStore) (pt : PrincipalType)
    (pid : Option String) (rt rid : String) (bits : Nat) (gb : String)
    (roleId : Option String) (newId : String) (now : Nat)
    (h : AtMostOnePerTuple store) :
    AtMostOnePerTuple
      (grantPermission store pt pid rt rid bits gb roleId newId now).1 := by
  induction store with
  | nil =>
      rw [grantPermission]
      exact List.pairwise_singleton _ _
  | cons a t ih =>
      rcases List.pairwise_cons.mp h with ⟨ha, ht⟩
      rw [grantPermission]
      by_cases hm : tupleMatches pt pid rt rid a = true
      · rw [if_pos hm]
        refine List.pairwise_cons.mpr ⟨?_, ht⟩
        intro b hb
        rw [tupleKey_updateAclEntry]
        exact ha b hb
      · rw [if_neg hm]
        refine List.pairwise_cons.mpr ⟨?_, ih ht⟩
        intro b hb
        rcases grant_mem t pt pid rt rid bits gb roleId newId now b hb with
          hbt | hbk
        · exact ha b hbt
        · rw [hbk]
          intro hak
          exact hm ((tupleMatches_iff pt pid rt rid a).mpr hak)

/-- Under the invariant, the store after a grant holds exactly one entry for
the granted tuple: the entry the grant returned. -/
theorem grant_filter_tuple (store : AclStore) (pt : PrincipalType)
    (pid : Option String) (rt rid : String) (bits : Nat) (gb : String)
    (roleId : Option String) (newId : String) (now : Nat)
    (h : AtMostOnePerTuple store) :
    (grantPermission store pt pid rt rid bits gb roleId newId now).1.filter
        (tupleMatches pt pid rt rid) =
      [(grantPermission store pt pid rt rid bits gb roleId newId now).2] := by
  induction store with
  | nil =>
      rw [grantPermission]
      simp [List.filter,
        (tupleMatches_iff pt pid rt rid _).mpr
          (tupleKey_mkAclEntry pt pid rt rid bits gb roleId newId now)]
  | cons a t ih =>
      rcases List.pairwise_cons.mp h with ⟨ha, ht⟩
      rw [grantPermission]
      by_cases hm : tupleMatches pt pid rt rid a = true
      · rw [if_pos hm]
        have hkey : tupleKey a = (pt, pid, rt, rid) :=
          (tupleMatches_iff pt pid rt rid a).mp hm
        have hfilt : t.filter (tupleMatches pt pid rt rid) = [] := by
          rw [List.filter_eq_nil_iff]
          intro b hb hmb
          exact ha b hb
            (hkey.trans ((tupleMatches_iff pt pid rt rid b).mp hmb).symm)
        have hupd : tupleMatches pt pid rt rid
            (updateAclEntry a bits gb roleId now) = true :=
          (tupleMatches_iff pt pid rt rid _).mpr
            ((tupleKey_updateAclEntry a bits gb roleId now).trans hkey)
        simp [List.filter_cons, hupd, hfilt]
      · rw [if_neg hm]
        simpa [List.filter_cons, hm] using ih ht

/-!
## C3 — one entry per tuple, re-grant replaces
-/

/-- The argument tuple of one `grantPermission` call. -/
structure GrantArgs where
  principalType : PrincipalType
  principalId : Option String
  resourceType : String
  resourceId : String
  permBits : Nat
  grantedBy : String
  roleId : Option String
  newId : String
  now : Nat
deriving Repr

/-- A sequence of `grantPermission` calls applied to a store. -/
def applyGrants (store : AclStore) (ops : List GrantArgs) : AclStore :=
  ops.foldl
    (fun s a => (grantPermission s a.principalType a.principalId
      a.resourceType a.resourceId a.permBits a.grantedBy a.roleId a.newId
      a.now).1)
    store

theorem applyGrants_preserves (ops : List GrantArgs) :
    ∀ store : AclStore, AtMostOnePerTuple store →
      AtMostOnePerTuple (applyGrants store ops) := by
  induction ops with
  | nil => intro s hs; simpa [applyGrants] using hs
  | cons a t ih =>
      intro s hs
      rw [applyGrants, List.foldl_cons]
      exact ih _ (grant_preserves_atMostOne s a.principalType a.principalId
        a.resourceType a.resourceId a.permBits a.grantedBy a.roleId a.newId
        a.now hs)

/-- C3: from any store satisfying the one-entry-per-tuple invariant, (i) any
sequence of `grantPermission` calls preserves the invariant — the store
never holds two entries for the same
`(principalType, principalId, resourceType, resourceId)` tuple — and
(ii) granting the same tuple twice leaves exactly one entry for the tuple
and its `permBits` equal the second grant's bits. -/
theorem c3_upsert_invariant (store : AclStore) (h : AtMostOnePerTuple store) :
    (∀ ops, AtMostOnePerTuple (applyGrants store ops)) ∧
      (∀ (pt : PrincipalType) (pid : Option String) (rt rid : String)
        (b₁ : Nat) (g₁ : String) (r₁ : Option String) (i₁ : String) (t₁ : Nat)
        (b₂ : Nat) (g₂ : String) (r₂ : Option String) (i₂ : String)
        (t₂ : Nat),
        ((grantPermission
            (grantPermission store pt pid rt rid b₁ g₁ r₁ i₁ t₁).1
            pt pid rt rid b₂ g₂ r₂ i₂ t₂).1.filter
          (tupleMatches pt pid rt rid)).map (·.permBits) = [b₂]) := by
  constructor
  · intro ops
    exact applyGrants_preserves ops store h
  · intro pt pid rt rid b₁ g₁ r₁ i₁ t₁ b₂ g₂ r₂ i₂ t₂
    have h1 : AtMostOnePerTuple
        (grantPermission store pt pid rt rid b₁ g₁ r₁ i₁ t₁).1 :=
      grant_preserves_atMostOne store pt pid rt rid b₁ g₁ r₁ i₁ t₁ h
    rw [grant_filter_tuple _ pt pid rt rid b₂ g₂ r₂ i₂ t₂ h1]
    rw [List.map_singleton, grant_permBits]

/-- Witness for C3: the empty store satisfies the invariant, and the
conclusions hold there. -/
theorem c3_witness :
    AtMostOnePerTuple ([] : AclStore) ∧
      ((∀ ops, AtMostOnePerTuple (applyGrants [] ops)) ∧
        (∀ (pt : PrincipalType) (pid : Option String) (rt rid : String)
          (b₁ : Nat) (g₁ : String) (r₁ : Option String) (i₁ : String)
          (t₁ : Nat) (b₂ : Nat) (g₂ : String) (r₂ : Option String)
          (i₂ : String) (t₂ : Nat),
          ((grantPermission
              (grantPermission [] pt pid rt rid b₁ g₁ r₁ i₁ t₁).1
              pt pid rt rid b₂ g₂ r₂ i₂ t₂).1.filter
            (tupleMatches pt pid rt rid)).map (·.permBits) = [b₂])) :=
  ⟨List.Pairwise.nil, c3_upsert_invariant [] List.Pairwise.nil⟩

/-!
## C10 — upsert with falsy roleId keeps the previous roleId
-/

/-- C10: when `grantPermission` upserts the existing entry `e` (the first —
and, under the invariant, only — tuple match) with a falsy `roleId`, the
stored entry keeps `e`'s `roleId` (and `_id` and principal/resource fields)
while `permBits`, `grantedBy` and `grantedAt` are all overwritten by the new
grant. -/
theorem c10_grant_keeps_roleId (pre post : AclStore) (e : IAclEntry)
    (pt : PrincipalType) (pid : Option String) (rt rid : String) (bits : Nat)
    (gb : String) (roleId : Option String) (newId : String) (now : Nat)
    (hpre : ∀ x ∈ pre, tupleMatches pt pid rt rid x = false)
    (he : tupleMatches pt pid rt rid e = true)
    (hrole : strTruthy roleId = false) :
    grantPermission (pre ++ e :: post) pt pid rt rid bits gb roleId newId now
      = (pre ++
          { e with permBits := bits, grantedBy := gb, grantedAt := now }
            :: post,
        { e with permBits := bits, grantedBy := gb, grantedAt := now }) := by
  have hupd : updateAclEntry e bits gb roleId now =
      { e with permBits := bits, grantedBy := gb, grantedAt := now } := by
    unfold updateAclEntry
    rw [hrole]
    simp
  rw [grant_found pre post e pt pid rt rid bits gb roleId newId now hpre he,
    hupd]

/-- A USER entry for `u1` on agent `r1` with OWNER bits and an old role. -/
def ownerEntryOldRole : IAclEntry :=
  ⟨"e9", PrincipalType.USER, some "u1", "agent", "r1", 15, some "oldRole",
    "g0", 0, some PrincipalModel.USER⟩

/-- Witness for C10: a concrete one-entry store, re-granted with
`roleId = none`; the stored `roleId` stays `some "oldRole"` while the bits,
grantor and timestamp are overwritten. -/
theorem c10_witness :
    (∀ x ∈ ([] : AclStore),
      tupleMatches PrincipalType.USER (some "u1") "agent" "r1" x = false) ∧
    tupleMatches PrincipalType.USER (some "u1") "agent" "r1"
      ownerEntryOldRole = true ∧
    strTruthy none = false ∧
    grantPermission [ownerEntryOldRole]
      PrincipalType.USER (some "u1") "agent" "r1" 1 "g1" none "n1" 7 =
      ([{ ownerEntryOldRole with
            permBits := 1, grantedBy := "g1", grantedAt := 7 }],
        { ownerEntryOldRole with
            permBits := 1, grantedBy := "g1", grantedAt := 7 }) := by
  refine ⟨by simp, by rfl, rfl, ?_⟩
  exact c10_grant_keeps_roleId [] [] ownerEntryOldRole
    PrincipalType.USER (some "u1") "agent" "r1" 1 "g1" none "n1" 7
    (by simp) (by rfl) rfl

/-!
## C8 — modifyPermissionBits
-/

theorem modify_notFound (store : AclStore) (pt : PrincipalType)
    (pid : Option String) (rt rid : String) (addBits removeBits : Option Nat)
    (h : ∀ x ∈ store, tupleMatches pt pid rt rid x = false) :
    modifyPermissionBits store pt pid rt rid addBits removeBits =
      (store, none) := by
  induction store with
  | nil => rfl
  | cons a t ih =>
      rw [modifyPermissionBits, if_neg (by simp [h a (by simp)]),
        ih fun x hx => h x (by simp [hx])]

theorem modify_found (pre post : AclStore) (e : IAclEntry)
    (pt : PrincipalType) (pid : Option String) (rt rid : String)
    (addBits removeBits : Option Nat)
    (hpre : ∀ x ∈ pre, tupleMatches pt pid rt rid x = false)
    (he : tupleMatches pt pid rt rid e = true) :
    modifyPermissionBits (pre ++ e :: post) pt pid rt rid addBits removeBits =
      (pre ++ { e with permBits := modifyBits e.permBits addBits removeBits }
          :: post,
        some { e with
          permBits := modifyBits e.permBits addBits removeBits }) := by
  induction pre with
  | nil =>
      simp only [List.nil_append]
      rw [modifyPermissionBits, if_pos he]
  | cons a t ih =>
      have ha : tupleMatches pt pid rt rid a = false := hpre a (by simp)
      rw [List.cons_append, modifyPermissionBits, if_neg (by simp [ha]),
        ih fun x hx => hpre x (by simp [hx])]
      simp

/-- The JS update `bits |= add; bits &= ~remove` computes
`(b | add) & ~remove`, i.e. `Nat.ldiff (b ||| add) remove`, on 32-bit
operands. -/
theorem modifyBits_some (b a r : Nat) (hb : b < 2 ^ 32) (ha : a < 2 ^ 32)
    (hr : r < 2 ^ 32) :
    modifyBits b (some a) (some r) = Nat.ldiff (b ||| a) r := by
  have hb1 : b ||| a < 2 ^ 32 := Nat.or_lt_two_pow hb ha
  have hmask : (0xFFFFFFFF : Nat) = 2 ^ 32 - 1 := by norm_num
  have step1 : (if numTruthy (some a) then b ||| (some a).getD 0 else b) =
      b ||| a := by
    by_cases h0 : a = 0
    · simp [numTruthy, h0]
    · simp [numTruthy, h0]
  apply Nat.eq_of_testBit_eq
  intro i
  rw [Nat.testBit_ldiff]
  unfold modifyBits jsNot32
  by_cases hr0 : r = 0
  · rw [if_neg (by simp [numTruthy, hr0]), step1, hr0, Nat.zero_testBit]
    simp
  · rw [if_pos (by simp [numTruthy, hr0]), step1, Option.getD_some,
      Nat.testBit_land, Nat.testBit_xor, hmask, Nat.testBit_two_pow_sub_one]
    by_cases hi : i < 32
    · simp [hi]
    · have hle : (2 : Nat) ^ 32 ≤ 2 ^ i :=
        Nat.pow_le_pow_right (by norm_num) (not_lt.mp hi)
      have hri : r.testBit i = false :=
        Nat.testBit_eq_false_of_lt (lt_of_lt_of_le hr hle)
      have hbi : (b ||| a).testBit i = false :=
        Nat.testBit_eq_false_of_lt (lt_of_lt_of_le hb1 hle)
      simp [hi, hri, hbi]

/-- C8: `modifyPermissionBits` on a tuple with no entry returns `null` and
leaves the store unchanged; on a tuple whose (first) entry holds bits `b` it
sets the entry's bits to `(b | addBits) & ~removeBits` — `Nat.ldiff
(b ||| addBits) removeBits` for 32-bit operands — in place and returns the
updated entry. -/
theorem c8_modifyPermissionBits :
    (∀ (store : AclStore) (pt : PrincipalType) (pid : Option String)
      (rt rid : String) (addBits removeBits : Option Nat),
      (∀ x ∈ store, tupleMatches pt pid rt rid x = false) →
        modifyPermissionBits store pt pid rt rid addBits removeBits =
          (store, none)) ∧
    (∀ (pre post : AclStore) (e : IAclEntry) (pt : PrincipalType)
      (pid : Option String) (rt rid : String) (a r : Nat),
      (∀ x ∈ pre, tupleMatches pt pid rt rid x = false) →
      tupleMatches pt pid rt rid e = true →
      e.permBits < 2 ^ 32 → a < 2 ^ 32 → r < 2 ^ 32 →
      modifyPermissionBits (pre ++ e :: post) pt pid rt rid (some a) (some r)
        = (pre ++
            { e with permBits := Nat.ldiff (e.permBits ||| a) r } :: post,
          some { e with permBits := Nat.ldiff (e.permBits ||| a) r })) := by
  constructor
  · exact modify_notFound
  · intro pre post e pt pid rt rid a r hpre he hb ha hr
    rw [modify_found pre post e pt pid rt rid (some a) (some r) hpre he,
      modifyBits_some e.permBits a r hb ha hr]

/-- Concrete evaluation `ldiff 7 1 = 6` ( `(5|3) & ~1` ). -/
theorem ldiff_7_1_eq_6 : Nat.ldiff 7 1 = 6 := by
  apply Nat.eq_of_testBit_eq
  intro i
  rw [Nat.testBit_ldiff]
  match i with
  | 0 => decide
  | 1 => decide
  | 2 => decide
  | n + 3 =>
      have hle : (8 : Nat) ≤ 2 ^ (n + 3) := by
        calc (8 : Nat) = 2 ^ 3 := by norm_num
          _ ≤ 2 ^ (n + 3) := Nat.pow_le_pow_right (by norm_num) (by omega)
      have h7 : (7 : Nat).testBit (n + 3) = false :=
        Nat.testBit_eq_false_of_lt (lt_of_lt_of_le (by norm_num) hle)
      have h6 : (6 : Nat).testBit (n + 3) = false :=
        Nat.testBit_eq_false_of_lt (lt_of_lt_of_le (by norm_num) hle)
      simp [h7, h6]

/-- A USER entry for `u1` on agent `r1` with bits `5` (VIEW|DELETE). -/
def viewDeleteEntry : IAclEntry :=
  ⟨"e8", PrincipalType.USER, some "u1", "agent", "r1", 5, none, "g0", 0,
    some PrincipalModel.USER⟩

/-- Witness for C8: both conjuncts at a concrete store — the miss case on
the empty store, and `(5 | 3) & ~1 = 6` on a concrete entry. -/
theorem c8_witness :
    modifyPermissionBits [] PrincipalType.USER (some "u1") "agent" "r1"
        (some 3) (some 1) = ([], none) ∧
      modifyPermissionBits [viewDeleteEntry]
        PrincipalType.USER (some "u1") "agent" "r1" (some 3) (some 1) =
        ([{ viewDeleteEntry with permBits := 6 }],
          some { viewDeleteEntry with permBits := 6 }) := by
  constructor
  · exact c8_modifyPermissionBits.1 [] PrincipalType.USER (some "u1") "agent"
      "r1" (some 3) (some 1) (by simp)
  · have h := c8_modifyPermissionBits.2 [] [] viewDeleteEntry
      PrincipalType.USER (some "u1") "agent" "r1" 3 1
      (by simp) (by rfl) (by norm_num [viewDeleteEntry]) (by norm_num)
      (by norm_num)
    have e7 : viewDeleteEntry.permBits ||| 3 = 7 := by rfl
    rw [e7, ldiff_7_1_eq_6] at h
    simpa using h

/-- Witness for C2: the amended characterization at the one-entry PUBLIC
store, `T = "agent"`, `b = 1`. -/
theorem c2_witness :
    "agent" ∈ validResourceTypes ∧ (1 : Int) ≤ 1 ∧
      ∃ l, psFindPubliclyAccessibleResources [pubViewEntry] "agent" 1 =
          Except.ok l ∧ l.Nodup ∧
        ∀ rid, rid ∈ l ↔
          ∃ e ∈ [pubViewEntry], e.principalType = PrincipalType.PUBLIC ∧
            e.resourceType = "agent" ∧ (e.permBits : Int) = 1 ∧
            e.resourceId = rid :=
  ⟨by simp [validResourceTypes], le_refl 1,
    c2_publicResources_amended [pubViewEntry] "agent" 1
      (by simp [validResourceTypes]) (le_refl 1)⟩

/-!
## C5 — empty principals and requiredBit validation
-/

/-- A USER entry for `u1` on agent `r1` with VIEW bits. -/
def userViewEntry : IAclEntry :=
  ⟨"e5", PrincipalType.USER, some "u1", "agent", "r1", 1, none, "g0", 0,
    some PrincipalModel.USER⟩

/-- C5 counterexample: the store-level query functions perform no
`requiredBit` validation at all — with the non-positive bit `0`,
`hasPermission` returns the ordinary value `true` (`permBits & 0 === 0`)
and `findAccessibleResources` returns every resource of the type, instead
of throwing as the claim states. -/
theorem c5_counterexample :
    hasPermission [userViewEntry] [⟨PrincipalType.USER, some "u1"⟩]
        "agent" "r1" 0 = true ∧
      findAccessibleResources [userViewEntry]
        [⟨PrincipalType.USER, some "u1"⟩] "agent" 0 = ["r1"] := by
  exact ⟨rfl, rfl⟩

/-- C5 (amended): all five store-level query operations tolerate an empty
principals list, returning `[]`/`false`/`0`/empty map without throwing; the
fail-fast throw on a non-positive (or non-numeric) required permission is
performed not by them but by the facade — `checkPermission` and
`findAccessibleResources` of `PermissionService.js` reject it with an
error. -/
theorem c5_empty_principals_amended :
    (∀ (store : AclStore) (rt rid : String) (bit : Nat) (ids : List String),
      findEntriesByPrincipalsAndResource store [] rt rid = [] ∧
        hasPermission store [] rt rid bit = false ∧
        getEffectivePermissions store [] rt rid = 0 ∧
        getEffectivePermissionsForResources store [] rt ids = [] ∧
        findAccessibleResources store [] rt bit = []) ∧
    (∀ (groups : List IGroup) (store : AclStore) (userId : String)
      (role : Option String) (rt rid : String) (q : Int), q < 1 →
      psCheckPermission groups store userId role rt rid q =
          Except.error PSError.reqPermNotPositive ∧
        psFindAccessibleResources groups store userId role rt q =
          Except.error PSError.reqPermNotPositive) := by
  constructor
  · intro store rt rid bit ids
    have hfind : findEntriesByPrincipalsAndResource store [] rt rid = [] := by
      rw [findEntries_eq, List.filter_eq_nil_iff]
      intro e _
      simp [principalMatches]
    refine ⟨hfind, ?_, ?_, ?_, ?_⟩
    · unfold hasPermission
      rw [hfind]
      rfl
    · unfold getEffectivePermissions
      rw [hfind]
      rfl
    · unfold getEffectivePermissionsForResources
      by_cases hids : ids.isEmpty = true
      · rw [if_pos hids]
      · rw [if_neg hids]
        have : (store.filter fun e =>
            if !(e.resourceType == rt && ids.contains e.resourceId) then false
            else principalMatches [] e) = [] := by
          rw [List.filter_eq_nil_iff]
          intro e _ h
          rcases Bool.eq_false_or_eq_true
            (e.resourceType == rt && ids.contains e.resourceId) with
              h1 | h1 <;>
            rw [h1] at h <;> simpa [principalMatches] using h
        rw [this]
        rfl
    · unfold findAccessibleResources
      have : (store.filter fun e =>
          if !(e.resourceType == rt &&
              e.permBits &&& bit == bit) then false
          else principalMatches [] e) = [] := by
        rw [List.filter_eq_nil_iff]
        intro e _ h
        rcases Bool.eq_false_or_eq_true
          (e.resourceType == rt && e.permBits &&& bit == bit) with h1 | h1 <;>
          rw [h1] at h <;> simpa [principalMatches] using h
      rw [this]
      rfl
  · intro groups store userId role rt rid q hq
    constructor
    · have hbody : checkPermissionBody groups store userId role rt rid q =
          Except.error PSError.reqPermNotPositive := by
        unfold checkPermissionBody
        rw [if_pos hq]
      unfold psCheckPermission
      rw [hbody]
      rfl
    · have hbody : findAccessibleResourcesBody groups store userId role rt q =
          Except.error PSError.reqPermNotPositive := by
        unfold findAccessibleResourcesBody
        rw [if_pos hq]
      unfold psFindAccessibleResources
      rw [hbody]
      rfl

/-- Witness for C5 (amended): the facade rejections at the concrete
non-positive input `0`, alongside the first conjunct at a concrete store. -/
theorem c5_witness :
    (0 : Int) < 1 ∧
      (findEntriesByPrincipalsAndResource [userViewEntry] [] "agent" "r1" =
          [] ∧
        hasPermission [userViewEntry] [] "agent" "r1" 1 = false ∧
        getEffectivePermissions [userViewEntry] [] "agent" "r1" = 0 ∧
        getEffectivePermissionsForResources [userViewEntry] [] "agent"
          ["r1"] = [] ∧
        findAccessibleResources [userViewEntry] [] "agent" 1 = []) ∧
      psCheckPermission [] [userViewEntry] "u1" none "agent" "r1" 0 =
          Except.error PSError.reqPermNotPositive ∧
        psFindAccessibleResources [] [userViewEntry] "u1" none "agent" 0 =
          Except.error PSError.reqPermNotPositive :=
  ⟨by norm_num,
    c5_empty_principals_amended.1 [userViewEntry] "agent" "r1" 1 ["r1"],
    c5_empty_principals_amended.2 [] [userViewEntry] "u1" none "agent" "r1" 0
      (by norm_num)⟩

/-!
## C7 — principal resolution
-/

/-- Normal form of `getUserPrincipals`: the USER principal, then the
optional ROLE principal, then one GROUP principal per member group, then
PUBLIC. -/
theorem getUserPrincipals_eq (groups : List IGroup) (userId : String)
    (role : Option String) :
    getUserPrincipals groups userId role =
      [⟨PrincipalType.USER, some userId⟩] ++
        (if (strTruthy role && strTruthy (role.map (·.trim))) = true then
          [⟨PrincipalType.ROLE, role⟩] else []) ++
        (findGroupsByMemberId groups userId).map
          (fun g => ⟨PrincipalType.GROUP, some g._id⟩) ++
        [⟨PrincipalType.PUBLIC, none⟩] := by
  unfold getUserPrincipals
  by_cases hc : (strTruthy role && strTruthy (role.map (·.trim))) = true <;>
    simp [hc]

/-- C7: `getUserPrincipals(userId, role)` starts with `{USER, userId}`,
contains `{ROLE, role}` exactly when `role` is a non-empty non-whitespace
string, contains exactly one `{GROUP, g._id}` per group whose `memberIds`
contain the user (in group-store order), and ends with `{PUBLIC}`. -/
theorem c7_getUserPrincipals (groups : List IGroup) (userId : String)
    (role : Option String) :
    (getUserPrincipals groups userId role).head? =
        some ⟨PrincipalType.USER, some userId⟩ ∧
      ((⟨PrincipalType.ROLE, role⟩ : Principal) ∈
          getUserPrincipals groups userId role ↔
        ∃ s, role = some s ∧ s ≠ "" ∧ s.trim ≠ "") ∧
      (getUserPrincipals groups userId role).filter
          (fun p => p.principalType == PrincipalType.GROUP) =
        (findGroupsByMemberId groups userId).map
          (fun g => ⟨PrincipalType.GROUP, some g._id⟩) ∧
      (getUserPrincipals groups userId role).getLast? =
        some ⟨PrincipalType.PUBLIC, none⟩ := by
  rw [getUserPrincipals_eq]
  refine ⟨rfl, ?_, ?_, ?_⟩
  · by_cases hc : (strTruthy role && strTruthy (role.map (·.trim))) = true
    · rw [if_pos hc]
      constructor
      · intro _
        cases role with
        | none => simp [strTruthy] at hc
        | some s =>
            rw [Bool.and_eq_true] at hc
            refine ⟨s, rfl, ?_, ?_⟩
            · intro h0
              rw [h0] at hc
              simp [strTruthy] at hc
            · intro h0
              have h2 := hc.2
              simp [strTruthy, h0] at h2
      · intro _
        simp
    · rw [if_neg hc]
      constructor
      · intro h
        exfalso
        simp only [List.append_nil, List.mem_append, List.mem_singleton,
          List.mem_map] at h
        rcases h with (h | ⟨g, _, h⟩) | h <;> simp at h
      · rintro ⟨s, rfl, hs1, hs2⟩
        exact absurd
          (by rw [Bool.and_eq_true]
              exact ⟨by simp [strTruthy, hs1], by simp [strTruthy, hs2]⟩)
          hc
  · have h1 : List.filter (fun p => p.principalType == PrincipalType.GROUP)
        [(⟨PrincipalType.USER, some userId⟩ : Principal)] = [] := rfl
    have h4 : List.filter (fun p => p.principalType == PrincipalType.GROUP)
        [(⟨PrincipalType.PUBLIC, none⟩ : Principal)] = [] := rfl
    have h3 : List.filter (fun p => p.principalType == PrincipalType.GROUP)
        ((findGroupsByMemberId groups userId).map
          fun g => (⟨PrincipalType.GROUP, some g._id⟩ : Principal)) =
        (findGroupsByMemberId groups userId).map
          fun g => (⟨PrincipalType.GROUP, some g._id⟩ : Principal) := by
      rw [List.filter_eq_self]
      intro a ha
      rcases List.mem_map.mp ha with ⟨g, _, rfl⟩
      rfl
    by_cases hc : (strTruthy role && strTruthy (role.map (·.trim))) = true
    · rw [if_pos hc]
      have h2 : List.filter (fun p => p.principalType == PrincipalType.GROUP)
          [(⟨PrincipalType.ROLE, role⟩ : Principal)] = [] := rfl
      rw [List.filter_append, List.filter_append, List.filter_append, h1, h2,
        h3, h4]
      simp
    · rw [if_neg hc]
      rw [List.filter_append, List.filter_append, List.filter_append, h1, h3,
        h4]
      simp
  · rw [List.getLast?_concat]

/-!
## C6 — hasPermission semantics and the concrete viewer scenario
-/

/-- The entry created by the concrete C6 grant: `AGENT_VIEWER`
(`permBits = 1`, seeded role `_id = "id_agent_viewer"`) for user `u1` on
agent `a1`. -/
def c6entry : IAclEntry :=
  mkAclEntry PrincipalType.USER (some "u1") "agent" "a1" 1 "admin"
    (some "id_agent_viewer") "id1" 0

/-- C6: (i) `hasPermission` is true iff some entry matching the principal
set and resource holds **all** bits of `requiredBit`
(`(permBits & requiredBit) === requiredBit`); (ii) concretely, after the
facade grants `agent_viewer` (`permBits = 1`) to user `u1` on agent `a1`,
`checkPermission` with `requiredPermission = 1` is true and with
`requiredPermission = 3` is false. -/
theorem c6_hasPermission (store : AclStore) (P : List Principal)
    (rt rid : String) (bit : Nat) :
    (hasPermission store P rt rid bit = true ↔
      ∃ e ∈ store, e.resourceType = rt ∧ e.resourceId = rid ∧
        (∃ p ∈ P,
          (p.principalType = PrincipalType.PUBLIC ∧
            e.principalType = PrincipalType.PUBLIC) ∨
          (p.principalType ≠ PrincipalType.PUBLIC ∧
            e.principalType = p.principalType ∧
            e.principalId = p.principalId)) ∧
        e.permBits &&& bit = bit) ∧
    (psGrantPermission seededRoles [] PrincipalType.USER (some "u1") "agent"
        "a1" "agent_viewer" "admin" "id1" 0 =
      Except.ok ([c6entry], c6entry) ∧
    c6entry.permBits = 1 ∧
    psCheckPermission [] [c6entry] "u1" none "agent" "a1" 1 =
      Except.ok true ∧
    psCheckPermission [] [c6entry] "u1" none "agent" "a1" 3 =
      Except.ok false) := by
  constructor
  · unfold hasPermission
    rw [findEntries_eq, List.any_eq_true]
    constructor
    · rintro ⟨e, he, hbit⟩
      rw [List.mem_filter] at he
      rcases he with ⟨he, hcond⟩
      rw [Bool.and_eq_true, Bool.and_eq_true] at hcond
      refine ⟨e, he, ?_, ?_, ?_, ?_⟩
      · exact beq_iff_eq.mp hcond.1.1
      · exact beq_iff_eq.mp hcond.1.2
      · exact (principalMatches_iff P e).mp hcond.2
      · exact beq_iff_eq.mp hbit
    · rintro ⟨e, he, hT, hR, hm, hbit⟩
      refine ⟨e, ?_, beq_iff_eq.mpr hbit⟩
      rw [List.mem_filter]
      refine ⟨he, ?_⟩
      rw [Bool.and_eq_true, Bool.and_eq_true]
      exact ⟨⟨beq_iff_eq.mpr hT, beq_iff_eq.mpr hR⟩,
        (principalMatches_iff P e).mpr hm⟩
  · refine ⟨?_, rfl, ?_, ?_⟩ <;> rfl

/-!
## C9 — bulk update: partial failure, never thrown
-/

/-- Bulk principal: user `u1` with the valid `agent_viewer` role. -/
def bp1 : BulkPrincipal :=
  ⟨PrincipalType.USER, some "u1", some "agent_viewer"⟩

/-- Bulk principal: user `u2` with an unknown role id. -/
def bp2 : BulkPrincipal := ⟨PrincipalType.USER, some "u2", some "bogus"⟩

/-- Bulk principal: group `g1` with the valid `agent_editor` role. -/
def bp3 : BulkPrincipal :=
  ⟨PrincipalType.GROUP, some "g1", some "agent_editor"⟩

/-- C9: `bulkUpdateResourcePermissions` never throws for a per-principal
failure — for any principal lists it returns a `{granted, updated, revoked,
errors}` result whenever `resourceId` is non-empty — and concretely, with
one invalid `accessRoleId` among three updated principals it grants the two
valid principals (the store gains exactly their two entries) and reports
exactly one element in `errors`. -/
theorem c9_bulkUpdate (roles : RoleStore) (store : AclStore)
    (rt rid : String) (ups rvps : List BulkPrincipal) (gb : String)
    (now : Nat) (hrid : rid ≠ "") :
    (∃ r, bulkUpdateResourcePermissions roles store rt rid ups rvps gb now =
      Except.ok r) ∧
    bulkUpdateResourcePermissions seededRoles [] "agent" "r1"
        [bp1, bp2, bp3] [] "admin" 0 =
      Except.ok
        ([mkAclEntry PrincipalType.USER (some "u1") "agent" "r1" 1 "admin"
            (some "id_agent_viewer") "bulk_0" 0,
          mkAclEntry PrincipalType.GROUP (some "g1") "agent" "r1" 3 "admin"
            (some "id_agent_editor") "bulk_1" 0],
          ⟨[bp1, bp3], [], [], [(bp2, "Role bogus not found")]⟩) := by
  constructor
  · unfold bulkUpdateResourcePermissions
    rw [if_neg (by simp [hrid])]
    exact ⟨_, rfl⟩
  · rfl

/-- Witness for C9 at `rid = "r1"`. -/
theorem c9_witness :
    "r1" ≠ "" ∧
      ((∃ r, bulkUpdateResourcePermissions seededRoles [] "agent" "r1"
          [bp1, bp2, bp3] [] "admin" 0 = Except.ok r) ∧
        bulkUpdateResourcePermissions seededRoles [] "agent" "r1"
            [bp1, bp2, bp3] [] "admin" 0 =
          Except.ok
            ([mkAclEntry PrincipalType.USER (some "u1") "agent" "r1" 1
                "admin" (some "id_agent_viewer") "bulk_0" 0,
              mkAclEntry PrincipalType.GROUP (some "g1") "agent" "r1" 3
                "admin" (some "id_agent_editor") "bulk_1" 0],
              ⟨[bp1, bp3], [], [], [(bp2, "Role bogus not found")]⟩)) :=
  ⟨by decide,
    c9_bulkUpdate seededRoles [] "agent" "r1" [bp1, bp2, bp3] [] "admin" 0
      (by decide)⟩

/-!
## C4 — which validation errors are propagated
-/

theorem validateResourceType_not_mem (rt : String)
    (h : rt ∉ validResourceTypes) :
    validateResourceType rt = Except.error (PSError.invalidResourceType rt)
    := by
  unfold validateResourceType
  rw [if_neg]
  intro hc
  exact h (List.elem_iff.mp (by simpa [List.contains] using hc))

theorem validateResourceType_mem (rt : String)
    (h : rt ∈ validResourceTypes) :
    validateResourceType rt = Except.ok () := by
  unfold validateResourceType
  rw [if_pos (by simpa [List.contains] using List.elem_iff.mpr h)]

/-- C4 counterexample: `checkPermission` with the unknown resource type
`"bogus"` (a validation error, as `validateResourceType` shows) returns the
safe negative `ok false` instead of propagating the error; the claim's
"every validation error is propagated" fails. -/
theorem c4_counterexample :
    psCheckPermission [] [] "u1" none "bogus" "r1" 1 = Except.ok false ∧
      validateResourceType "bogus" =
        Except.error (PSError.invalidResourceType "bogus") :=
  ⟨rfl, rfl⟩

/-- C4 (amended): the facade's error handling is asymmetric.
`grantPermission` propagates every validation error (missing `principalId`,
unknown `resourceType`, unknown `accessRoleId`, role/resourceType
mismatch).  `checkPermission` and `findAccessibleResources` propagate only
the non-positive `requiredPermission` error and swallow an unknown
`resourceType` into `false`/`[]`.  `getEffectivePermissions` never
propagates anything: it returns `ok` on all inputs, `0` on a validation
error. -/
theorem c4_error_propagation_amended :
    (∀ (roles : RoleStore) (store : AclStore) (pt : PrincipalType)
      (pid : Option String) (rt rid arid gb newId : String) (now : Nat),
      (pt ≠ PrincipalType.PUBLIC → strTruthy pid = false →
        psGrantPermission roles store pt pid rt rid arid gb newId now =
          Except.error PSError.principalIdRequired) ∧
      (pt ≠ PrincipalType.ROLE → strTruthy pid = true → rid ≠ "" →
        rt ∉ validResourceTypes →
        psGrantPermission roles store pt pid rt rid arid gb newId now =
          Except.error (PSError.invalidResourceType rt)) ∧
      (pt ≠ PrincipalType.ROLE → strTruthy pid = true → rid ≠ "" →
        rt ∈ validResourceTypes → findRoleByIdentifier roles arid = none →
        psGrantPermission roles store pt pid rt rid arid gb newId now =
          Except.error (PSError.roleNotFound arid)) ∧
      (∀ role, pt ≠ PrincipalType.ROLE → strTruthy pid = true → rid ≠ "" →
        rt ∈ validResourceTypes →
        findRoleByIdentifier roles arid = some role →
        role.resourceType ≠ rt →
        psGrantPermission roles store pt pid rt rid arid gb newId now =
          Except.error
            (PSError.roleResourceMismatch arid role.resourceType rt))) ∧
    (∀ (groups : List IGroup) (store : AclStore) (userId : String)
      (role : Option String) (rt rid : String) (q : Int),
      (q < 1 →
        psCheckPermission groups store userId role rt rid q =
          Except.error PSError.reqPermNotPositive) ∧
      (¬ q < 1 → rt ∉ validResourceTypes →
        psCheckPermission groups store userId role rt rid q =
          Except.ok false)) ∧
    (∀ (groups : List IGroup) (store : AclStore) (userId : String)
      (role : Option String) (rt : String) (q : Int),
      (q < 1 →
        psFindAccessibleResources groups store userId role rt q =
          Except.error PSError.reqPermNotPositive) ∧
      (¬ q < 1 → rt ∉ validResourceTypes →
        psFindAccessibleResources groups store userId role rt q =
          Except.ok [])) ∧
    (∀ (groups : List IGroup) (store : AclStore) (userId : String)
      (role : Option String) (rt rid : String),
      (∃ v, psGetEffectivePermissions groups store userId role rt rid =
        Except.ok v) ∧
      (rt ∉ validResourceTypes →
        psGetEffectivePermissions groups store userId role rt rid =
          Except.ok 0)) := by
  refine ⟨?_, ?_, ?_, ?_⟩
  · intro roles store pt pid rt rid arid gb newId now
    refine ⟨?_, ?_, ?_, ?_⟩
    · intro hpt hpid
      unfold psGrantPermission
      rw [if_pos (by simp [hpt, hpid])]
    · intro hpt hpid hrid hrt
      unfold psGrantPermission
      rw [if_neg (by simp [hpid]), if_neg (by simp [hpt]),
        if_neg (by simp [hrid]), validateResourceType_not_mem rt hrt]
      rfl
    · intro hpt hpid hrid hrt hrole
      unfold psGrantPermission
      rw [if_neg (by simp [hpid]), if_neg (by simp [hpt]),
        if_neg (by simp [hrid]), validateResourceType_mem rt hrt, hrole]
      rfl
    · intro role hpt hpid hrid hrt hrole hmis
      unfold psGrantPermission
      rw [if_neg (by simp [hpid]), if_neg (by simp [hpt]),
        if_neg (by simp [hrid]), validateResourceType_mem rt hrt, hrole]
      have : (role.resourceType != rt) = true := by simp [hmis]
      simp only [this, if_true]
      rfl
  · intro groups store userId role rt rid q
    constructor
    · intro hq
      have hbody : checkPermissionBody groups store userId role rt rid q =
          Except.error PSError.reqPermNotPositive := by
        unfold checkPermissionBody
        rw [if_pos hq]
      unfold psCheckPermission
      rw [hbody]
      rfl
    · intro hq hrt
      have hbody : checkPermissionBody groups store userId role rt rid q =
          Except.error (PSError.invalidResourceType rt) := by
        unfold checkPermissionBody
        rw [if_neg hq, validateResourceType_not_mem rt hrt]
        rfl
      unfold psCheckPermission
      rw [hbody]
      rfl
  · intro groups store userId role rt q
    constructor
    · intro hq
      have hbody : findAccessibleResourcesBody groups store userId role rt q
          = Except.error PSError.reqPermNotPositive := by
        unfold findAccessibleResourcesBody
        rw [if_pos hq]
      unfold psFindAccessibleResources
      rw [hbody]
      rfl
    · intro hq hrt
      have hbody : findAccessibleResourcesBody groups store userId role rt q
          = Except.error (PSError.invalidResourceType rt) := by
        unfold findAccessibleResourcesBody
        rw [if_neg hq, validateResourceType_not_mem rt hrt]
        rfl
      unfold psFindAccessibleResources
      rw [hbody]
      rfl
  · intro groups store userId role rt rid
    constructor
    · cases hb : getEffectivePermissionsBody groups store userId role rt rid
        with
      | error e =>
          refine ⟨0, ?_⟩
          unfold psGetEffectivePermissions
          rw [hb]
      | ok n =>
          refine ⟨n, ?_⟩
          unfold psGetEffectivePermissions
          rw [hb]
    · intro hrt
      have hbody : getEffectivePermissionsBody groups store userId role rt
          rid = Except.error (PSError.invalidResourceType rt) := by
        unfold getEffectivePermissionsBody
        rw [validateResourceType_not_mem rt hrt]
        rfl
      unfold psGetEffectivePermissions
      rw [hbody]

/-- Witness for C4 (amended): each conjunct at a concrete input. -/
theorem c4_witness :
    (PrincipalType.USER ≠ PrincipalType.PUBLIC ∧
      strTruthy (none : Option String) = false ∧
      psGrantPermission seededRoles [] PrincipalType.USER none "agent" "r1"
          "agent_viewer" "admin" "n1" 0 =
        Except.error PSError.principalIdRequired) ∧
    ("bogus" ∉ validResourceTypes ∧
      psGrantPermission seededRoles [] PrincipalType.USER (some "u1")
          "bogus" "r1" "agent_viewer" "admin" "n1" 0 =
        Except.error (PSError.invalidResourceType "bogus")) ∧
    (findRoleByIdentifier seededRoles "nope" = none ∧
      psGrantPermission seededRoles [] PrincipalType.USER (some "u1")
          "agent" "r1" "nope" "admin" "n1" 0 =
        Except.error (PSError.roleNotFound "nope")) ∧
    psGrantPermission seededRoles [] PrincipalType.USER (some "u1") "agent"
        "r1" "promptGroup_viewer" "admin" "n1" 0 =
      Except.error
        (PSError.roleResourceMismatch "promptGroup_viewer" "promptGroup"
          "agent") ∧
    ((0 : Int) < 1 ∧
      psCheckPermission [] [] "u1" none "agent" "r1" 0 =
        Except.error PSError.reqPermNotPositive) ∧
    psCheckPermission [] [] "u1" none "bogus" "r1" 2 = Except.ok false ∧
    psFindAccessibleResources [] [] "u1" none "agent" 0 =
      Except.error PSError.reqPermNotPositive ∧
    psFindAccessibleResources [] [] "u1" none "bogus" 2 = Except.ok [] ∧
    (∃ v, psGetEffectivePermissions [] [] "u1" none "agent" "r1" =
      Except.ok v) ∧
    psGetEffectivePermissions [] [] "u1" none "bogus" "r1" = Except.ok 0 :=
  ⟨⟨by decide, rfl,
      (c4_error_propagation_amended.1 seededRoles [] PrincipalType.USER none
        "agent" "r1" "agent_viewer" "admin" "n1" 0).1 (by decide) rfl⟩,
    ⟨by decide,
      (c4_error_propagation_amended.1 seededRoles [] PrincipalType.USER
        (some "u1") "bogus" "r1" "agent_viewer" "admin" "n1" 0).2.1
        (by decide) rfl (by decide) (by decide)⟩,
    ⟨rfl,
      (c4_error_propagation_amended.1 seededRoles [] PrincipalType.USER
        (some "u1") "agent" "r1" "nope" "admin" "n1" 0).2.2.1
        (by decide) rfl (by decide) (by decide) rfl⟩,
    (c4_error_propagation_amended.1 seededRoles [] PrincipalType.USER
      (some "u1") "agent" "r1" "promptGroup_viewer" "admin" "n1" 0).2.2.2
      ⟨"id_promptGroup_viewer", "promptGroup_viewer", "promptGroup", 1⟩
      (by decide) rfl (by decide) (by decide) rfl (by decide),
    ⟨by norm_num,
      (c4_error_propagation_amended.2.1 [] [] "u1" none "agent" "r1" 0).1
        (by norm_num)⟩,
    (c4_error_propagation_amended.2.1 [] [] "u1" none "bogus" "r1" 2).2
      (by norm_num) (by decide),
    (c4_error_propagation_amended.2.2.1 [] [] "u1" none "agent" 0).1
      (by norm_num),
    (c4_error_propagation_amended.2.2.1 [] [] "u1" none "bogus" 2).2
      (by norm_num) (by decide),
    (c4_error_propagation_amended.2.2.2 [] [] "u1" none "agent" "r1").1,
    (c4_error_propagation_amended.2.2.2 [] [] "u1" none "bogus" "r1").2
      (by decide)⟩

end LibreChatACL
